import Mathlib

/-!
# Shallow embedding of the synton-lang runtime core

This file embeds, in Lean 4, the parts of the `synton-lang` repository that
the verified claims are about:

* `crates/synton-runtime/src/stack.rs` — the tagged `StackValue` model with
  its arithmetic, and the bounded execution `Stack`;
* `crates/synton-runtime/src/memory.rs` — the bounded `Memory` arena with
  alloc/read/write/free and the `gc` compaction pass;
* `crates/synton-runtime/src/engine.rs` — the `Engine` fetch-decode-execute
  loop (`run_with_inputs` / `execute_one`) and its `error_code` mapping;
* `crates/synton-contract/src/lib.rs` and `dso.rs` — `ContractVerifier::
  violation_dso`, the `DsoBuilder`, and the `DebugStateObject` with its
  serialization round trip.

Modelling conventions:

* Rust `i64` values are embedded as `Int`; where the Rust operator wraps in
  a release build (`+`, `-`, `*` on `i64`) the embedding wraps explicitly
  modulo `2^64`; where Rust panics in every profile (`i64::MIN / -1`) the
  embedding returns a dedicated `panicked` outcome.
* Rust `usize` arithmetic inside `Stack::peek` (`len - 1 - offset`) is
  embedded with release-profile wrapping semantics (`usizeSub`).
* `f64` is embedded parametrically: every definition takes an `F64Model F`
  providing the four arithmetic operations and the `== 0.0` test, so the
  theorems hold for every interpretation of IEEE-754 arithmetic.
* Fallible Rust functions returning `Result` are embedded with `Except`;
  engine steps that can additionally unwind (Rust panic) use `StepOut`.
-/

namespace Synton

/-- `2^64`, the modulus of Rust's 64-bit machine arithmetic. -/
def USIZE : Nat := 2 ^ 64

/-- Release-profile Rust `usize` subtraction: wraps modulo `2^64`
(debug builds would panic on underflow instead). -/
def usizeSub (a b : Nat) : Nat := ((((a : Int) - (b : Int)) % (USIZE : Int))).toNat

/-- `i64::MIN`. -/
def i64Min : Int := -(2 ^ 63)

/-- `i64::MAX`. -/
def i64Max : Int := 2 ^ 63 - 1

/-- Release-profile wrapping of an integer result into the `i64` range,
as performed by Rust's `+`, `-`, `*` on `i64` with overflow checks off. -/
def i64Wrap (x : Int) : Int := ((x + 2 ^ 63).emod (2 ^ 64)) - 2 ^ 63

/-- Parametric model of Rust `f64`: the binary operations used by
`StackValue::add/sub/mul/div` and the `b == 0.0` test.  Keeping the carrier
abstract makes every engine theorem hold for any IEEE-754 interpretation. -/
structure F64Model (F : Type) where
  add : F → F → F
  sub : F → F → F
  mul : F → F → F
  div : F → F → F
  isZero : F → Bool

/-- Trivial `F64Model` over `Unit`, used to instantiate theorems at
concrete inputs that involve no float values. -/
def unitF64 : F64Model Unit where
  add := fun _ _ => ()
  sub := fun _ _ => ()
  mul := fun _ _ => ()
  div := fun _ _ => ()
  isZero := fun _ => true

/-- `MemoryError` from `memory.rs`. -/
inductive MemoryError where
  | OutOfMemory (requested : Nat) (available : Nat)
  | InvalidAddress (addr : Nat)
  | AccessViolation (address : Nat) (size : Nat)
deriving DecidableEq

/-- `RuntimeError` from `synton-runtime/src/lib.rs`. -/
inductive RuntimeError where
  | DivisionByZero
  | IndexOutOfBounds (index : Nat) (len : Nat)
  | StackOverflow
  | StackUnderflow
  | Memory (e : MemoryError)
  | MaxStepsExceeded
  | InvalidOperation (msg : String)
  | TypeMismatch (expected : String) (found : String)
  | UndefinedFunction (name : String)
  | ConstraintViolation (msg : String)
  | Panic (msg : String)
deriving DecidableEq

/-- `StackValue` from `stack.rs`: the tagged runtime value. -/
inductive StackValue (F : Type) where
  | Integer (i : Int)
  | Float (f : F)
  | String (s : String)
  | Bool (b : Bool)
  | Unit
  | Ref (r : Nat)
deriving DecidableEq

/-- Outcome of a value operation that can return, fail, or unwind
(Rust panic, e.g. `i64::MIN / -1` division overflow). -/
inductive ValOut (F : Type) where
  | ok (v : StackValue F)
  | err (e : RuntimeError)
  | panicked
deriving DecidableEq

variable {F : Type}

/-- `StackValue::add`: integer addition (wrapping in release), float
addition, string concatenation; anything else is a `TypeMismatch`. -/
def svAdd (M : F64Model F) : StackValue F → StackValue F → ValOut F
  | .Integer a, .Integer b => .ok (.Integer (i64Wrap (a + b)))
  | .Float a, .Float b => .ok (.Float (M.add a b))
  | .String a, .String b => .ok (.String (a ++ b))
  | _, _ => .err (.TypeMismatch "compatible types" "incompatible types")

/-- `StackValue::sub`. -/
def svSub (M : F64Model F) : StackValue F → StackValue F → ValOut F
  | .Integer a, .Integer b => .ok (.Integer (i64Wrap (a - b)))
  | .Float a, .Float b => .ok (.Float (M.sub a b))
  | _, _ => .err (.TypeMismatch "numeric" "non-numeric")

/-- `StackValue::mul`. -/
def svMul (M : F64Model F) : StackValue F → StackValue F → ValOut F
  | .Integer a, .Integer b => .ok (.Integer (i64Wrap (a * b)))
  | .Float a, .Float b => .ok (.Float (M.mul a b))
  | _, _ => .err (.TypeMismatch "numeric" "non-numeric")

/-- `StackValue::div`: checks `b == 0` first (`DivisionByZero`), then
performs Rust `i64` division, which truncates toward zero and panics on
the single overflowing pair `(i64::MIN, -1)` in every build profile.
Float division checks `b == 0.0` the same way. -/
def svDiv (M : F64Model F) : StackValue F → StackValue F → ValOut F
  | .Integer a, .Integer b =>
      if b = 0 then .err .DivisionByZero
      else if a = i64Min ∧ b = -1 then .panicked
      else .ok (.Integer (a.tdiv b))
  | .Float a, .Float b =>
      if M.isZero b then .err .DivisionByZero
      else .ok (.Float (M.div a b))
  | _, _ => .err (.TypeMismatch "numeric" "non-numeric")

/-- The execution `Stack` from `stack.rs`: `values` is the backing `Vec`
in storage order (index 0 is the bottom, the last element is the top). -/
structure Stack (F : Type) where
  values : List (StackValue F)
  max_size : Nat
deriving DecidableEq

/-- `Stack::new`. -/
def Stack.new (F : Type) (max_size : Nat) : Stack F := ⟨[], max_size⟩

/-- `Stack::push`: fails with `StackOverflow` once length has reached the
configured capacity, without mutating the stack. -/
def Stack.push (s : Stack F) (v : StackValue F) : Except RuntimeError (Stack F) :=
  if s.values.length ≥ s.max_size then .error .StackOverflow
  else .ok { s with values := s.values ++ [v] }

/-- A `Stack::push` whose `Result` is discarded, exactly as at every call
site inside `Engine::run_with_inputs`/`execute_one`: on overflow the value
is dropped and the stack is left unchanged. -/
def Stack.pushDiscard (s : Stack F) (v : StackValue F) : Stack F :=
  match s.push v with
  | .ok s' => s'
  | .error _ => s

/-- `Stack::pop`: removes and returns the top (last `Vec` element). -/
def Stack.pop (s : Stack F) : Except RuntimeError (StackValue F × Stack F) :=
  match s.values.getLast? with
  | none => .error .StackUnderflow
  | some v => .ok (v, { s with values := s.values.dropLast })

/-- `Stack::peek`: `self.values.get(self.values.len() - 1 - offset)`,
with the `usize` subtractions wrapping as in a release build. -/
def Stack.peek (s : Stack F) (offset : Nat) : Except RuntimeError (StackValue F) :=
  match s.values.get? (usizeSub (usizeSub s.values.length 1) offset) with
  | some v => .ok v
  | none => .error .StackUnderflow

/-- `MemoryCell` from `memory.rs`. -/
inductive MemoryCell (F : Type) where
  | Integer (i : Int)
  | Float (f : F)
  | Bytes (bs : List Nat)
  | String (s : String)
deriving DecidableEq

/-- `Memory` from `memory.rs`: a growable vector of cells where `none`
is a tombstone left by `free`. -/
structure Memory (F : Type) where
  cells : List (Option (MemoryCell F))
  max_size : Nat
deriving DecidableEq

/-- `Memory::new`. -/
def Memory.new (F : Type) (max_size : Nat) : Memory F := ⟨[], max_size⟩

/-- `Memory::alloc`: appends a new live cell at the next address, or fails
with `OutOfMemory` once the cell count has reached `max_size`. -/
def Memory.alloc (m : Memory F) (c : MemoryCell F) :
    Except MemoryError (Nat × Memory F) :=
  if m.cells.length ≥ m.max_size then
    .error (.OutOfMemory 1 (m.max_size - m.cells.length))
  else
    .ok (m.cells.length, { m with cells := m.cells ++ [some c] })

/-- `Memory::read`: `cells.get(addr).and_then(|c| c.as_ref())`, so both an
out-of-range address and a tombstoned slot are `InvalidAddress`. -/
def Memory.read (m : Memory F) (addr : Nat) : Except MemoryError (MemoryCell F) :=
  match m.cells.get? addr with
  | some (some c) => .ok c
  | _ => .error (.InvalidAddress addr)

/-- `Memory::write`: `cells.get_mut(addr)` only checks that the slot
exists, so writing to a tombstoned (freed) slot succeeds. -/
def Memory.write (m : Memory F) (addr : Nat) (c : MemoryCell F) :
    Except MemoryError (Memory F) :=
  if addr < m.cells.length then
    .ok { m with cells := m.cells.set addr (some c) }
  else .error (.InvalidAddress addr)

/-- `Memory::free`: tombstones an existing slot (`get_mut` again only
checks existence, so freeing an already-freed slot also succeeds). -/
def Memory.free (m : Memory F) (addr : Nat) : Except MemoryError (Memory F) :=
  if addr < m.cells.length then
    .ok { m with cells := m.cells.set addr none }
  else .error (.InvalidAddress addr)

/-- `Memory::gc`: `self.cells.retain(|c| c.is_some())` — drops every
tombstone from the backing vector, shifting later cells down. -/
def Memory.gc (m : Memory F) (_roots : List Nat) : Memory F :=
  { m with cells := m.cells.filter Option.isSome }

/-- `OpKind` from `bytecode.rs`: the closed instruction-tag variant. -/
inductive OpKind where
  | Nop
  | Const (idx : Nat)
  | Drop | Dup | Swap | Rot
  | LoadLocal (n : Nat) | StoreLocal (n : Nat)
  | Add | Sub | Mul | Div | Mod | Pow
  | BitAnd | BitOr | BitXor | Shl | Shr
  | Eq | NotEq | Less | LessEq | Greater | GreaterEq
  | And | Or | Not
  | Branch | BranchIf | Jump (target : Nat) | Loop (target : Nat) | Return
  | Call (idx : Nat) | CallIndirect | TailCall (idx : Nat)
  | Load | Store | Alloc
  | ArrayNew | ArrayGet | ArraySet | ArrayLen
  | CheckPre | CheckPost | Assert
  | Print | Panic
deriving DecidableEq

/-- `Constant` from `bytecode.rs`. -/
inductive Constant (F : Type) where
  | Integer (i : Int)
  | Float (f : F)
  | String (s : String)
  | Bool (b : Bool)
  | Unit
deriving DecidableEq

/-- `Instruction` from `bytecode.rs`: an operation tag plus a source span. -/
structure Instruction where
  op : OpKind
  span : Nat × Nat
deriving DecidableEq

/-- `Bytecode` from `bytecode.rs` (the metadata tables are never consulted
by the engine and are omitted from the embedding). -/
structure Bytecode (F : Type) where
  instructions : List Instruction
  constants : List (Constant F)
deriving DecidableEq

/-- `Bytecode::get_constant`: a miss, not a crash, outside `[0, len)`. -/
def Bytecode.getConstant (bc : Bytecode F) (idx : Nat) : Option (Constant F) :=
  bc.constants.get? idx

/-- `constant_to_value` from `engine.rs`. -/
def constantToValue : Constant F → StackValue F
  | .Integer i => .Integer i
  | .Float f => .Float f
  | .String s => .String s
  | .Bool b => .Bool b
  | .Unit => .Unit

/-- `ExecutionResult` from `synton-runtime/src/lib.rs`. -/
inductive ExecutionResult (F : Type) where
  | Success (v : StackValue F)
  | Unit
  | Error (code : String) (message : String) (location : Option String)
deriving DecidableEq

/-- A whole-run outcome: either an `ExecutionResult`, or a Rust panic that
unwound out of the engine (only `i64::MIN / -1` division overflow). -/
inductive RunOutcome (F : Type) where
  | result (r : ExecutionResult F)
  | panicked
deriving DecidableEq

/-- `error_code` from `engine.rs`. -/
def errorCode : RuntimeError → String
  | .DivisionByZero => "DIVISION_BY_ZERO"
  | .IndexOutOfBounds _ _ => "INDEX_OUT_OF_BOUNDS"
  | .StackOverflow => "STACK_OVERFLOW"
  | .StackUnderflow => "STACK_UNDERFLOW"
  | .MaxStepsExceeded => "MAX_STEPS_EXCEEDED"
  | .ConstraintViolation _ => "CONSTRAINT_VIOLATION"
  | _ => "RUNTIME_ERROR"

/-- The `thiserror`-derived `Display` messages of `RuntimeError`. -/
def errorMessage : RuntimeError → String
  | .DivisionByZero => "division by zero"
  | .IndexOutOfBounds i l => "index out of bounds: " ++ toString i ++ " >= " ++ toString l
  | .StackOverflow => "stack overflow"
  | .StackUnderflow => "stack underflow"
  | .Memory (.OutOfMemory r a) =>
      "memory error: out of memory: requested " ++ toString r ++ ", available " ++ toString a
  | .Memory (.InvalidAddress a) => "memory error: invalid address: " ++ toString a
  | .Memory (.AccessViolation a s) =>
      "memory error: access violation: address " ++ toString a ++ ", size " ++ toString s
  | .MaxStepsExceeded => "maximum steps exceeded"
  | .InvalidOperation m => "invalid operation: " ++ m
  | .TypeMismatch e f => "type mismatch: expected " ++ e ++ ", found " ++ f
  | .UndefinedFunction n => "undefined function: " ++ n
  | .ConstraintViolation m => "constraint violation: " ++ m
  | .Panic m => "panic: " ++ m

/-- Outcome of one `Engine::execute_one` dispatch, carrying the stack as
mutated so far: `Ok(Continue)`, `Ok(Halt(v))`, `Err(e)`, or a Rust panic. -/
inductive StepOut (F : Type) where
  | cont (s : Stack F)
  | halt (v : StackValue F) (s : Stack F)
  | fail (e : RuntimeError) (s : Stack F)
  | panicked
deriving DecidableEq

/-- Lift a binary `StackValue` operation into an engine step: pop `b`,
pop `a`, apply, push the result discarding the push's `Result` —
exactly the `Add`/`Sub`/`Mul`/`Div` arms of `execute_one`. -/
def binStep (f : StackValue F → StackValue F → ValOut F) (s : Stack F) : StepOut F :=
  match s.pop with
  | .error e => .fail e s
  | .ok (b, s1) =>
    match s1.pop with
    | .error e => .fail e s1
    | .ok (a, s2) =>
      match f a b with
      | .err e => .fail e s2
      | .panicked => .panicked
      | .ok v => .cont (s2.pushDiscard v)

/-- `Engine::execute_one` from `engine.rs`.  The `stdlib` parameter of the
Rust function is dropped: no implemented arm reads it.  The final catch-all
arm is the source's `_ => warn!("unimplemented opcode")`, which logs and
falls through to `*pc += 1` — i.e. it continues with no effect. -/
def executeOne (M : F64Model F) (bc : Bytecode F) (s : Stack F) : OpKind → StepOut F
  | .Nop => .cont s
  | .Const idx =>
      match bc.getConstant idx with
      | none => .fail (.InvalidOperation "constant index out of bounds") s
      | some c => .cont (s.pushDiscard (constantToValue c))
  | .Add => binStep (svAdd M) s
  | .Sub => binStep (svSub M) s
  | .Mul => binStep (svMul M) s
  | .Div => binStep (svDiv M) s
  | .Return =>
      match s.pop with
      | .ok (v, s') => .halt v s'
      | .error _ => .halt .Unit s
  | .Print =>
      match s.pop with
      | .ok (_, s') => .cont s'
      | .error _ => .cont s
  | .Panic =>
      match s.pop with
      | .ok (.String m, s') => .fail (.Panic m) s'
      | .ok (_, s') => .fail (.Panic "panic") s'
      | .error _ => .fail (.Panic "panic") s
  | _ => .cont s

/-- The step-budget test at the top of the `run_with_inputs` loop:
`if let Some(max) = self.max_steps { if steps >= max { ... } }`. -/
def budgetExhausted (maxSteps : Option Nat) (steps : Nat) : Bool :=
  match maxSteps with
  | some mx => steps ≥ mx
  | none => false

/-- The `MAX_STEPS_EXCEEDED` message `format!("exceeded maximum steps: {}", max)`. -/
def maxStepsMessage (maxSteps : Option Nat) : String :=
  match maxSteps with
  | some mx => "exceeded maximum steps: " ++ toString mx
  | none => ""

/-- One layer of the `while pc < bytecode.instructions().len()` loop of
`Engine::run_with_inputs`.  Every arm of `execute_one` that continues
advances `pc` by exactly one (no jump opcode is implemented), so the loop
performs exactly `len - pc` further iterations; `fuel` is that count, and
`runFrom` below supplies it, making the recursion structural.  When
`fuel = len - pc`, the `fuel = 0` case coincides with the loop's own exit
test `pc ≥ len`. -/
def runAux (M : F64Model F) (bc : Bytecode F) (maxSteps : Option Nat) :
    Nat → Stack F → Nat → Nat → RunOutcome F × Stack F
  | 0, s, _, _ => (.result .Unit, s)
  | fuel + 1, s, pc, steps =>
    if h : pc < bc.instructions.length then
      if budgetExhausted maxSteps steps then
        (.result (.Error "MAX_STEPS_EXCEEDED" (maxStepsMessage maxSteps) none), s)
      else
        match executeOne M bc s (bc.instructions.get ⟨pc, h⟩).op with
        | .cont s' => runAux M bc maxSteps fuel s' (pc + 1) (steps + 1)
        | .halt v s' => (.result (.Success v), s')
        | .fail e s' =>
            (.result (.Error (errorCode e) (errorMessage e) (some ("pc=" ++ toString pc))), s')
        | .panicked => (.panicked, s)
    else
      (.result .Unit, s)

/-- The `run_with_inputs` loop from an arbitrary `pc`, returning the final
result together with the engine's stack (which the Rust engine keeps after
the call returns). -/
def runFrom (M : F64Model F) (bc : Bytecode F) (maxSteps : Option Nat)
    (s : Stack F) (pc steps : Nat) : RunOutcome F × Stack F :=
  runAux M bc maxSteps (bc.instructions.length - pc) s pc steps

/-- `RuntimeConfig` from `synton-runtime/src/lib.rs`. -/
structure RuntimeConfig where
  max_memory : Nat
  jit_enabled : Bool
  max_steps : Option Nat
deriving DecidableEq

/-- `RuntimeConfig::default()`. -/
def RuntimeConfig.default : RuntimeConfig :=
  ⟨16 * 1024 * 1024, false, some 1000000⟩

/-- `Engine` from `engine.rs`: note that the `stack` is a field of the
engine struct, constructed once in `Engine::new` — not per run call. -/
structure Engine (F : Type) where
  stack : Stack F
  max_steps : Option Nat
deriving DecidableEq

/-- `Engine::new`: a fresh 1024-capacity stack and the configured budget. -/
def Engine.new (F : Type) (config : RuntimeConfig) : Engine F :=
  ⟨Stack.new F 1024, config.max_steps⟩

/-- `Engine::run_with_inputs`: pushes the inputs in reverse order
(discarding each push's `Result`), then runs the loop from `pc = 0`,
`steps = 0` on the engine's current stack; the mutated stack stays in
the engine after the call. -/
def Engine.runWithInputs (M : F64Model F) (e : Engine F) (bc : Bytecode F)
    (inputs : List (StackValue F)) : RunOutcome F × Engine F :=
  let s0 := inputs.reverse.foldl Stack.pushDiscard e.stack
  let r := runFrom M bc e.max_steps s0 0 0
  (r.1, { e with stack := r.2 })

/-- `Engine::run`: `run_with_inputs` with no inputs. -/
def Engine.run (M : F64Model F) (e : Engine F) (bc : Bytecode F) :
    RunOutcome F × Engine F :=
  e.runWithInputs M bc []

/-!
## Contract layer (`synton-contract`)

`serde_json::Value` is embedded as `Json` below (JSON without float
literals, which have no shallow embedding).  JSON objects are ordered
key/value lists, as in the serialized text.
-/

/-- Embedding of `serde_json::Value` (float literals excluded). -/
inductive Json where
  | null
  | bool (b : Bool)
  | num (n : Int)
  | str (s : String)
  | arr (elems : List Json)
  | obj (fields : List (String × Json))

/-- `DebugStateObject` from `dso.rs`: `extra` is the `#[serde(flatten)]`
extension map, kept as an ordered association list. -/
structure DebugStateObject where
  status : String
  error_code : String
  location : Option String
  context : Json
  expected : Option String
  actual : Option String
  suggestion : Option String
  extra : List (String × Json)

/-- `DebugStateObject::new`. -/
def DebugStateObject.new (status error_code : String) : DebugStateObject :=
  ⟨status, error_code, none, .obj [], none, none, none, []⟩

/-- `DsoBuilder` from `dso.rs`. -/
structure DsoBuilder where
  status : Option String := none
  error_code : Option String := none
  location : Option String := none
  context : Json := .null
  expected : Option String := none
  actual : Option String := none
  suggestion : Option String := none
  extra : List (String × Json) := []

/-- `DsoBuilder::new` (= `Default::default()`; the default of
`serde_json::Value` is `Null`). -/
def DsoBuilder.new : DsoBuilder := {}

/-- `DsoBuilder::status`. -/
def DsoBuilder.withStatus (b : DsoBuilder) (s : String) : DsoBuilder :=
  { b with status := some s }

/-- `DsoBuilder::error_code`. -/
def DsoBuilder.withErrorCode (b : DsoBuilder) (c : String) : DsoBuilder :=
  { b with error_code := some c }

/-- `DsoBuilder::expected`. -/
def DsoBuilder.withExpected (b : DsoBuilder) (e : String) : DsoBuilder :=
  { b with expected := some e }

/-- `DsoBuilder::context`. -/
def DsoBuilder.withContext (b : DsoBuilder) (ctx : Json) : DsoBuilder :=
  { b with context := ctx }

/-- `DsoBuilder::build`: defaults `status` to `"Unknown"` and
`error_code` to `"UNKNOWN"`. -/
def DsoBuilder.build (b : DsoBuilder) : DebugStateObject :=
  ⟨b.status.getD "Unknown", b.error_code.getD "UNKNOWN", b.location,
   b.context, b.expected, b.actual, b.suggestion, b.extra⟩

/-- `ContractKind` from `synton-contract/src/lib.rs`. -/
inductive ContractKind where
  | Pre | Post | Invariant | Assert
deriving DecidableEq

/-- `ContractLocation` from `synton-contract/src/lib.rs`. -/
inductive ContractLocation where
  | Fn (name : String)
  | Loop
  | Inline
deriving DecidableEq

/-- `Contract` from `synton-contract/src/lib.rs`. -/
structure Contract where
  kind : ContractKind
  constraint : String
  location : ContractLocation
deriving DecidableEq

/-- `VerificationResult` from `solver.rs`. -/
inductive VerificationResult where
  | Sat | Unsat | Unknown | Skipped
deriving DecidableEq

/-- `ContractVerifier::violation_dso`: the builder chain
`status → error_code (by kind) → expected (constraint) → context → build`. -/
def violationDso (contract : Contract) (context : Json) : DebugStateObject :=
  ((((DsoBuilder.new.withStatus "ContractViolation").withErrorCode
      (match contract.kind with
       | .Pre => "PRECONDITION_VIOLATION"
       | .Post => "POSTCONDITION_VIOLATION"
       | .Invariant => "INVARIANT_VIOLATION"
       | .Assert => "ASSERTION_FAILED")).withExpected
      contract.constraint).withContext context).build

/-- The seven named fields of `DebugStateObject`, as serialized keys. -/
def knownKeys : List String :=
  ["status", "error_code", "location", "context", "expected", "actual", "suggestion"]

/-- Serialization of an `Option<String>` field (no `skip_serializing_if`
attribute, so `None` serializes as `null`). -/
def optStrToJson : Option String → Json
  | none => .null
  | some s => .str s

/-- Modelled from the spec: the serde-derived serialization behind
`DebugStateObject::to_json` (the derive expansion and `serde_json` are
external library code).  Per the spec, keys are preserved and the
extension map is flattened into the top level after the named fields. -/
def dsoToJson (d : DebugStateObject) : Json :=
  .obj ([("status", .str d.status),
         ("error_code", .str d.error_code),
         ("location", optStrToJson d.location),
         ("context", d.context),
         ("expected", optStrToJson d.expected),
         ("actual", optStrToJson d.actual),
         ("suggestion", optStrToJson d.suggestion)] ++ d.extra)

/-- Reading back an optional string field: absent or `null` is `None`,
a string is `Some`, any other shape is a deserialization error. -/
def readOptStr (fields : List (String × Json)) (key : String) :
    Option (Option String) :=
  match fields.lookup key with
  | none => some none
  | some .null => some none
  | some (.str s) => some (some s)
  | some _ => none

/-- Modelled from the spec: the serde-derived deserialization behind
`DebugStateObject::from_json`.  Named fields are read by key; unknown
top-level keys are collected, in order, into the extension map. -/
def dsoFromJson : Json → Option DebugStateObject
  | .obj fields => do
      let status ← fields.lookup "status"
      let status ← match status with | .str s => some s | _ => none
      let errorCode ← fields.lookup "error_code"
      let errorCode ← match errorCode with | .str s => some s | _ => none
      let location ← readOptStr fields "location"
      let context ← fields.lookup "context"
      let expected ← readOptStr fields "expected"
      let actual ← readOptStr fields "actual"
      let suggestion ← readOptStr fields "suggestion"
      some ⟨status, errorCode, location, context, expected, actual, suggestion,
            fields.filter (fun kv => !(knownKeys.contains kv.1))⟩
  | _ => none

/-!
## Concrete programs and inputs used by the theorems
-/

/-- Iterated `Stack::push`, stopping at the first failure. -/
def pushAll (s : Stack F) : List (StackValue F) → Except RuntimeError (Stack F)
  | [] => .ok s
  | v :: rest =>
    match s.push v with
    | .error e => .error e
    | .ok s' => pushAll s' rest

/-- A runtime configuration with a step budget of 10. -/
def cfg10 : RuntimeConfig := ⟨16 * 1024 * 1024, false, some 10⟩

/-- A runtime configuration with no step budget. -/
def cfgUnbounded : RuntimeConfig := ⟨16 * 1024 * 1024, false, none⟩

/-- The program whose instruction sequence is exactly `[Loop(0)]`. -/
def bcLoop : Bytecode Unit := ⟨[⟨.Loop 0, (0, 0)⟩], []⟩

/-- A program that pushes the constant `Integer(7)` and falls off the end. -/
def bcConst7 : Bytecode Unit := ⟨[⟨.Const 0, (0, 0)⟩], [.Integer 7]⟩

/-- A program whose single instruction is `Return`. -/
def bcReturn : Bytecode Unit := ⟨[⟨.Return, (0, 0)⟩], []⟩

/-- A fully populated `DebugStateObject`, with a non-empty extension map. -/
def dsoSample : DebugStateObject :=
  ⟨"Error", "RUNTIME_ERROR", some "node:12", .obj [("x", .num 3)],
   some "x > 0", none, some "check x",
   [("trace_id", .str "t1"), ("attempt", .num 2)]⟩

/-!
## Helper lemmas
-/

theorem usize_int_cast : ((USIZE : Nat) : Int) = 18446744073709551616 := by
  norm_num [USIZE]

theorem usize_lit : USIZE = 18446744073709551616 := by norm_num [USIZE]

theorem usizeSub_eq (a b : Nat) (ha : a < USIZE) (hb : b < USIZE) :
    usizeSub a b = if b ≤ a then a - b else a + USIZE - b := by
  unfold usizeSub
  rw [usize_int_cast]
  rw [usize_lit] at ha hb ⊢
  split <;> omega

theorem peek_underflow (s : Stack F) (offset : Nat)
    (hlen : s.values.length < USIZE) (hoff : offset < USIZE)
    (h : s.values.length ≤ offset) : s.peek offset = .error .StackUnderflow := by
  unfold Stack.peek
  have hone : (1 : Nat) < USIZE := by rw [usize_lit]; omega
  have hinner := usizeSub_eq s.values.length 1 hlen hone
  have hidx : s.values.length ≤ usizeSub (usizeSub s.values.length 1) offset := by
    rcases Nat.eq_zero_or_pos s.values.length with hz | hp
    · rw [hinner, if_neg (by omega)]
      rw [usizeSub_eq _ _ (by rw [usize_lit] at *; omega) hoff]
      rw [usize_lit] at *
      split <;> omega
    · rw [hinner, if_pos (by omega)]
      rw [usizeSub_eq _ _ (by omega) hoff]
      rw [usize_lit] at *
      split <;> omega
  rw [List.get?_eq_none.mpr hidx]

theorem peek_ok (s : Stack F) (offset : Nat) (w : StackValue F)
    (hlen : s.values.length < USIZE)
    (hoff : offset < s.values.length)
    (hget : s.values.get? (s.values.length - 1 - offset) = some w) :
    s.peek offset = .ok w := by
  unfold Stack.peek
  have hone : (1 : Nat) < USIZE := by rw [usize_lit]; omega
  have hidx : usizeSub (usizeSub s.values.length 1) offset
      = s.values.length - 1 - offset := by
    rw [usizeSub_eq _ _ hlen hone, if_pos (by omega)]
    rw [usizeSub_eq _ _ (by omega) (by rw [usize_lit] at *; omega), if_pos (by omega)]
  rw [hidx, hget]

theorem pushAll_ok : ∀ (vs : List (StackValue F)) (s : Stack F),
    s.values.length + vs.length ≤ s.max_size →
    pushAll s vs = .ok ⟨s.values ++ vs, s.max_size⟩ := by
  intro vs
  induction vs with
  | nil => intro s _; simp [pushAll]
  | cons v rest ih =>
      intro s h
      have hlt : ¬ s.values.length ≥ s.max_size := by
        simp only [List.length_cons] at h
        omega
      simp only [pushAll, Stack.push, if_neg hlt]
      have := ih ⟨s.values ++ [v], s.max_size⟩ (by
        simp only [List.length_append, List.length_cons, List.length_nil] at h ⊢
        omega)
      simpa using this

theorem pop_error_underflow (s : Stack F) (e : RuntimeError) :
    s.pop = .error e → e = .StackUnderflow := by
  unfold Stack.pop
  split <;> simp_all

theorem svAdd_err (M : F64Model F) (a b : StackValue F) (e : RuntimeError) :
    svAdd M a b = .err e → e ≠ .StackOverflow := by
  cases a <;> cases b <;> simp [svAdd] <;> rintro rfl <;> simp

theorem svSub_err (M : F64Model F) (a b : StackValue F) (e : RuntimeError) :
    svSub M a b = .err e → e ≠ .StackOverflow := by
  cases a <;> cases b <;> simp [svSub] <;> rintro rfl <;> simp

theorem svMul_err (M : F64Model F) (a b : StackValue F) (e : RuntimeError) :
    svMul M a b = .err e → e ≠ .StackOverflow := by
  cases a <;> cases b <;> simp [svMul] <;> rintro rfl <;> simp

theorem svDiv_err (M : F64Model F) (a b : StackValue F) (e : RuntimeError) :
    svDiv M a b = .err e → e ≠ .StackOverflow := by
  cases a <;> cases b <;> simp only [svDiv] <;> intro h <;>
    (try split at h) <;> (try split at h) <;> simp_all <;> rintro rfl <;> simp_all

theorem binStep_fail (f : StackValue F → StackValue F → ValOut F) (s : Stack F)
    (e : RuntimeError) (s' : Stack F)
    (hf : ∀ a b e', f a b = .err e' → e' ≠ .StackOverflow)
    (h : binStep f s = .fail e s') : e ≠ .StackOverflow := by
  unfold binStep at h
  split at h
  · rename_i e1 hpop
    injection h with h1 h2
    subst h1
    have := pop_error_underflow s e1 hpop
    simp [this]
  · rename_i b s1 hpop
    split at h
    · rename_i e1 hpop1
      injection h with h1 h2
      subst h1
      have := pop_error_underflow s1 e1 hpop1
      simp [this]
    · rename_i a s2 hpop2
      split at h
      · rename_i e2 hval
        injection h with h1 h2
        subst h1
        exact hf _ _ _ hval
      · exact absurd h (by simp)
      · exact absurd h (by simp)

theorem errorCode_overflow (e : RuntimeError) :
    errorCode e = "STACK_OVERFLOW" → e = .StackOverflow := by
  cases e <;> intro h <;> first | rfl | (simp [errorCode] at h)

theorem executeOne_fail (M : F64Model F) (bc : Bytecode F) (s : Stack F)
    (op : OpKind) (e : RuntimeError) (s' : Stack F)
    (h : executeOne M bc s op = .fail e s') : e ≠ .StackOverflow := by
  cases op <;> simp only [executeOne] at h <;>
    first
    | exact binStep_fail _ _ _ _ (svAdd_err M) h
    | exact binStep_fail _ _ _ _ (svSub_err M) h
    | exact binStep_fail _ _ _ _ (svMul_err M) h
    | exact binStep_fail _ _ _ _ (svDiv_err M) h
    | simp at h
    | (split at h <;>
        first
        | (injection h with h1 h2; subst h1; simp)
        | simp at h)

theorem runAux_no_overflow (M : F64Model F) (bc : Bytecode F)
    (maxSteps : Option Nat) :
    ∀ (fuel : Nat) (s : Stack F) (pc steps : Nat) (msg : String)
      (loc : Option String),
    (runAux M bc maxSteps fuel s pc steps).1
      ≠ .result (.Error "STACK_OVERFLOW" msg loc) := by
  intro fuel
  induction fuel with
  | zero => intro s pc steps msg loc; simp [runAux]
  | succ n ih =>
      intro s pc steps msg loc
      simp only [runAux]
      split
      · split
        · simp
        · split
          · exact ih _ _ _ _ _
          · simp
          · rename_i e s2 hexec
            intro hcontra
            injection hcontra with hres
            injection hres with hcode hmsg hloc
            exact executeOne_fail M bc s _ e s2 hexec (errorCode_overflow e hcode)
          · simp
      · simp

/-!
## The claim theorems
-/

/-- C1: running the program `[Loop(0)]` on an engine with a step budget of
10 does NOT halt with `MAX_STEPS_EXCEEDED` after 10 steps: `Loop` is an
unimplemented opcode, so the engine dispatches it once as a no-op, advances
past the end of the program, and returns `Unit` after a single step.  This
theorem evaluates the embedded code at the claim's exact input. -/
theorem loop_budget_run_returns_unit :
    (Engine.runWithInputs unitF64 (Engine.new Unit cfg10) bcLoop []).1
      = .result .Unit := rfl

/-- C2: dispatching an unimplemented opcode (here `Jump(0)`) in the only
engine mode that exists returns `Ok(Continue)` with the stack unchanged
(the Rust arm logs a warning and advances `pc`), rather than the
`InvalidOperation` failure the claim requires of the default mode. -/
theorem unimplemented_opcode_is_silent_noop :
    executeOne unitF64 bcLoop (Stack.new Unit 1024) (.Jump 0)
      = .cont (Stack.new Unit 1024) := rfl

/-- C3: the operand stack is a field of the `Engine` struct and survives
`run_with_inputs` calls.  After a first run of `[Const(Integer 7)]` leaves
`7` on the stack, a second run of `[Return]` on the same engine returns
`Success(Integer 7)`, while the same call on a freshly constructed engine
returns `Success(Unit)` — so the second call does not equal the
fresh-engine call, refuting the per-call-context claim on the code. -/
theorem engine_stack_leaks_across_runs :
    (Engine.runWithInputs unitF64
        (Engine.runWithInputs unitF64 (Engine.new Unit cfgUnbounded) bcConst7 []).2
        bcReturn []).1 = .result (.Success (.Integer 7))
    ∧ (Engine.runWithInputs unitF64 (Engine.new Unit cfgUnbounded) bcReturn []).1
        = .result (.Success .Unit) := ⟨rfl, rfl⟩

/-- C4: in an arena of capacity 2 the first two allocations succeed at
addresses 0 and 1, the third fails with `OutOfMemory`, and after freeing
address 0 a `read` fails with `InvalidAddress` — but a `write` to the
freed address SUCCEEDS (and re-populates the slot), because
`Memory::write` only checks that the slot exists, not that it is live.
The last conjunct is the divergence from the claim. -/
theorem write_after_free_succeeds :
    (Memory.new Unit 2).alloc (.Integer 10)
        = .ok (0, ⟨[some (.Integer 10)], 2⟩)
    ∧ Memory.alloc (⟨[some (.Integer 10)], 2⟩ : Memory Unit) (.Integer 11)
        = .ok (1, ⟨[some (.Integer 10), some (.Integer 11)], 2⟩)
    ∧ Memory.alloc (⟨[some (.Integer 10), some (.Integer 11)], 2⟩ : Memory Unit)
        (.Integer 12) = .error (.OutOfMemory 1 0)
    ∧ Memory.free (⟨[some (.Integer 10), some (.Integer 11)], 2⟩ : Memory Unit) 0
        = .ok ⟨[none, some (.Integer 11)], 2⟩
    ∧ Memory.read (⟨[none, some (.Integer 11)], 2⟩ : Memory Unit) 0
        = .error (.InvalidAddress 0)
    ∧ Memory.write (⟨[none, some (.Integer 11)], 2⟩ : Memory Unit) 0 (.Integer 12)
        = .ok ⟨[some (.Integer 12), some (.Integer 11)], 2⟩ :=
  ⟨rfl, rfl, rfl, rfl, rfl, rfl⟩

/-- C5: allocate A, B, C at addresses 0, 1, 2; free B; run `gc`.  The
compaction pass removes B's tombstoned slot, so C's value moves from
address 2 to address 1: reading C's original address 2 now fails with
`InvalidAddress` and its value answers at address 1.  A (before the freed
slot) is unchanged.  This refutes the claim that C's address survives. -/
theorem gc_shifts_later_addresses :
    (Memory.new Unit 3).alloc (.Integer 1) = .ok (0, ⟨[some (.Integer 1)], 3⟩)
    ∧ Memory.alloc (⟨[some (.Integer 1)], 3⟩ : Memory Unit) (.Integer 2)
        = .ok (1, ⟨[some (.Integer 1), some (.Integer 2)], 3⟩)
    ∧ Memory.alloc (⟨[some (.Integer 1), some (.Integer 2)], 3⟩ : Memory Unit)
        (.Integer 3)
        = .ok (2, ⟨[some (.Integer 1), some (.Integer 2), some (.Integer 3)], 3⟩)
    ∧ Memory.free
        (⟨[some (.Integer 1), some (.Integer 2), some (.Integer 3)], 3⟩ : Memory Unit) 1
        = .ok ⟨[some (.Integer 1), none, some (.Integer 3)], 3⟩
    ∧ Memory.gc (⟨[some (.Integer 1), none, some (.Integer 3)], 3⟩ : Memory Unit) []
        = ⟨[some (.Integer 1), some (.Integer 3)], 3⟩
    ∧ Memory.read (⟨[some (.Integer 1), some (.Integer 3)], 3⟩ : Memory Unit) 0
        = .ok (.Integer 1)
    ∧ Memory.read (⟨[some (.Integer 1), some (.Integer 3)], 3⟩ : Memory Unit) 2
        = .error (.InvalidAddress 2)
    ∧ Memory.read (⟨[some (.Integer 1), some (.Integer 3)], 3⟩ : Memory Unit) 1
        = .ok (.Integer 3) :=
  ⟨rfl, rfl, rfl, rfl, rfl, rfl, rfl, rfl⟩

/-- C6: the stack-discipline contract.  Pushing `n` values into a
fresh stack of capacity `n` succeeds; a push onto a full stack fails with
`StackOverflow` and leaves the stack unchanged; `pop` on an empty stack
fails with `StackUnderflow`; `peek(offset)` fails with `StackUnderflow`
(returning an error, not indexing wrongly) whenever `offset ≥ length`
— which subsumes the empty stack — and returns the element `offset` below
the top otherwise.  The `< 2^64` bounds state that length and offset are
Rust `usize` values. -/
theorem stack_push_pop_peek_contract (n : Nat) (vs : List (StackValue F))
    (s : Stack F) (v : StackValue F) (offset : Nat) :
    (vs.length = n → pushAll (Stack.new F n) vs = .ok ⟨vs, n⟩)
    ∧ (s.values.length ≥ s.max_size →
        s.push v = .error .StackOverflow ∧ s.pushDiscard v = s)
    ∧ (s.values = [] → s.pop = .error .StackUnderflow)
    ∧ (s.values.length < USIZE → offset < USIZE → s.values.length ≤ offset →
        s.peek offset = .error .StackUnderflow)
    ∧ (∀ w, s.values.length < USIZE → offset < s.values.length →
        s.values.get? (s.values.length - 1 - offset) = some w →
        s.peek offset = .ok w) := by
  refine ⟨?_, ?_, ?_, ?_, ?_⟩
  · intro h
    subst h
    have := pushAll_ok vs (Stack.new F vs.length) (by simp [Stack.new])
    simpa [Stack.new] using this
  · intro h
    constructor
    · simp [Stack.push, h]
    · simp [Stack.pushDiscard, Stack.push, h]
  · intro h
    simp [Stack.pop, h]
  · exact peek_underflow s offset
  · intro w h1 h2 h3
    exact peek_ok s offset w h1 h2 h3

/-- C6 witness: the contract instantiated at capacity 1 with the value
`Integer 5`, evaluated on concrete inputs. -/
theorem stack_push_pop_peek_contract_witness :
    pushAll (Stack.new Unit 1) [.Integer 5] = .ok ⟨[.Integer 5], 1⟩
    ∧ Stack.push (⟨[.Integer 5], 1⟩ : Stack Unit) (.Integer 6)
        = .error .StackOverflow
    ∧ Stack.pop (Stack.new Unit 4) = .error .StackUnderflow
    ∧ Stack.peek (⟨[.Integer 5], 1⟩ : Stack Unit) 1 = .error .StackUnderflow
    ∧ Stack.peek (⟨[.Integer 5], 1⟩ : Stack Unit) 0 = .ok (.Integer 5) :=
  ⟨(stack_push_pop_peek_contract 1 [.Integer 5]
      (⟨[.Integer 5], 1⟩ : Stack Unit) (.Integer 6) 0).1 rfl,
   ((stack_push_pop_peek_contract 1 [.Integer 5]
      (⟨[.Integer 5], 1⟩ : Stack Unit) (.Integer 6) 0).2.1 (by decide)).1,
   (stack_push_pop_peek_contract 1 ([] : List (StackValue Unit))
      (Stack.new Unit 4) (.Integer 6) 0).2.2.1 rfl,
   (stack_push_pop_peek_contract 1 [.Integer 5]
      (⟨[.Integer 5], 1⟩ : Stack Unit) (.Integer 6) 1).2.2.2.1
      (by decide) (by decide) (by decide),
   (stack_push_pop_peek_contract 1 [.Integer 5]
      (⟨[.Integer 5], 1⟩ : Stack Unit) (.Integer 6) 0).2.2.2.2
      (.Integer 5) (by decide) (by decide) rfl⟩

/-- C7 counterexample: at `(a, b) = (i64::MIN, -1)` the divisor is nonzero
but `StackValue::div` does not return the truncating quotient — the Rust
`i64` division overflows and panics in every build profile. -/
theorem div_min_by_neg_one_panics :
    svDiv unitF64 (.Integer (-(2 ^ 63))) (.Integer (-1)) = .panicked
    ∧ svDiv unitF64 (.Integer (-(2 ^ 63))) (.Integer (-1))
        ≠ .ok (.Integer (Int.tdiv (-(2 ^ 63)) (-1))) :=
  ⟨rfl, by decide⟩

/-- C7 amended: `div` on integers fails with `DivisionByZero` when `b = 0`;
for `b ≠ 0` and `(a, b) ≠ (i64::MIN, -1)` it returns the truncating
quotient; at `(i64::MIN, -1)` the division overflow panics; float division
by a divisor equal to `0.0` fails with `DivisionByZero` (and otherwise
divides); mixed or non-numeric operands fail with `TypeMismatch`. -/
theorem div_semantics (M : F64Model F) (a b : Int) :
    (b = 0 → svDiv M (.Integer a) (.Integer b) = .err .DivisionByZero)
    ∧ (b ≠ 0 → ¬(a = i64Min ∧ b = -1) →
        svDiv M (.Integer a) (.Integer b) = .ok (.Integer (a.tdiv b)))
    ∧ (a = i64Min → b = -1 → svDiv M (.Integer a) (.Integer b) = .panicked)
    ∧ (∀ x y : F, M.isZero y = true →
        svDiv M (.Float x) (.Float y) = .err .DivisionByZero)
    ∧ (∀ x y : F, M.isZero y = false →
        svDiv M (.Float x) (.Float y) = .ok (.Float (M.div x y)))
    ∧ (∀ u v : StackValue F,
        (∀ i j : Int, ¬(u = .Integer i ∧ v = .Integer j)) →
        (∀ x y : F, ¬(u = .Float x ∧ v = .Float y)) →
        svDiv M u v = .err (.TypeMismatch "numeric" "non-numeric")) := by
  refine ⟨?_, ?_, ?_, ?_, ?_, ?_⟩
  · intro hb
    simp [svDiv, hb]
  · intro hb hno
    rw [show svDiv M (.Integer a) (.Integer b)
        = if b = 0 then .err .DivisionByZero
          else if a = i64Min ∧ b = -1 then .panicked
          else .ok (.Integer (a.tdiv b)) from rfl]
    rw [if_neg hb, if_neg hno]
  · intro ha hb
    simp [svDiv, ha, hb, i64Min]
  · intro x y hz
    simp [svDiv, hz]
  · intro x y hz
    simp [svDiv, hz]
  · intro u v hi hf
    cases u <;> cases v <;> simp [svDiv] <;> first
      | exact absurd ⟨rfl, rfl⟩ (hi _ _)
      | exact absurd ⟨rfl, rfl⟩ (hf _ _)

/-- C7 witness: the amended semantics evaluated at `(7, 0)` and `(7, 2)`. -/
theorem div_semantics_witness :
    svDiv unitF64 (.Integer 7) (.Integer 0) = .err .DivisionByZero
    ∧ svDiv unitF64 (.Integer 7) (.Integer 2) = .ok (.Integer (Int.tdiv 7 2)) :=
  ⟨(div_semantics unitF64 7 0).1 rfl,
   (div_semantics unitF64 7 2).2.1 (by decide) (by decide)⟩

/-- C8: a `DebugStateObject` round-trips through its serialized form
(modelled at the JSON-value level, per the spec: named fields first, the
extension map flattened into the top level on write, unknown top-level
keys collected back into the extension map on read), for every combination
of set/unset optional fields, provided the extension map uses keys distinct
from the seven named fields (they are "unknown top-level keys"). -/
theorem dso_round_trip (d : DebugStateObject)
    (h : ∀ kv ∈ d.extra, knownKeys.contains kv.1 = false) :
    dsoFromJson (dsoToJson d) = some d := by
  obtain ⟨st, ec, loc, ctx, exp, act, sug, extra⟩ := d
  cases loc <;> cases exp <;> cases act <;> cases sug <;>
    (simp [dsoToJson, dsoFromJson, readOptStr, optStrToJson, List.lookup,
       List.filter_append, knownKeys];
     intro a b hab;
     simpa [knownKeys] using h (a, b) hab)

/-- C8 witness: the round trip evaluated on a fully populated sample DSO
with a non-empty extension map. -/
theorem dso_round_trip_witness :
    dsoFromJson (dsoToJson dsoSample) = some dsoSample :=
  dso_round_trip dsoSample (by decide)

/-- C9: `violation_dso` yields the error code determined by the contract
kind (`Pre → PRECONDITION_VIOLATION`, `Post → POSTCONDITION_VIOLATION`,
`Invariant → INVARIANT_VIOLATION`, `Assert → ASSERTION_FAILED`) and sets
`expected` to the contract's constraint text — in particular for every
`Post` contract, whatever the solver answered. -/
theorem violation_dso_codes (c : Contract) (ctx : Json) :
    (violationDso c ctx).error_code
      = (match c.kind with
         | .Pre => "PRECONDITION_VIOLATION"
         | .Post => "POSTCONDITION_VIOLATION"
         | .Invariant => "INVARIANT_VIOLATION"
         | .Assert => "ASSERTION_FAILED")
    ∧ (violationDso c ctx).expected = some c.constraint := by
  obtain ⟨k, con, loc⟩ := c
  cases k <;> exact ⟨rfl, rfl⟩

/-- C10: no engine run ever terminates with an `Error` whose code is
`STACK_OVERFLOW`: every `Stack::push` result inside the engine (input
priming, `Const`, arithmetic result pushes) is discarded, so an
at-capacity push drops the value and execution continues.  Holds for
every engine state, program, input list, and float semantics. -/
theorem run_never_stack_overflow (M : F64Model F) (e : Engine F)
    (bc : Bytecode F) (inputs : List (StackValue F)) (msg : String)
    (loc : Option String) :
    (e.runWithInputs M bc inputs).1
      ≠ .result (.Error "STACK_OVERFLOW" msg loc) := by
  unfold Engine.runWithInputs runFrom
  exact runAux_no_overflow M bc e.max_steps _ _ _ _ _ _

/-- C10 witness: the theorem applied to a concrete run. -/
theorem run_never_stack_overflow_witness :
    (Engine.runWithInputs unitF64 (Engine.new Unit cfg10) bcConst7
        [.Integer 1]).1
      ≠ .result (.Error "STACK_OVERFLOW" "stack overflow" none) :=
  run_never_stack_overflow unitF64 (Engine.new Unit cfg10) bcConst7
    [.Integer 1] "stack overflow" none

end Synton
